import Mathlib

/-!
Shallow embedding of the live-tick broadcast / reconnecting-stream core of the
forex repository (`app/services/websocket.py` and `app/services/capital.py`),
with theorems settling the specification claims about it.

Conventions of the embedding:
* Python dicts (`self.connections`, `self.connection_info`) become association
  lists in insertion order; `del d[k]` becomes a key filter, `d[k] = v` an
  insert-or-overwrite that keeps insertion order.
* Python list slices `l[start:]` become `pySliceFrom`, including the
  `l[-0:] = l` corner of negative-index slicing.
* Prices are rationals (the spec asks for decimals, not binary floats; every
  literal appearing in the claims is exact in `ℚ`).
* Timestamps are integers ("units" in the spec's sense); `datetime.now()`
  becomes an explicit `now` parameter.
* `await`ed sends are modelled by their outcome: a send either succeeds or
  fails, and a per-id `fails` predicate simulates failures where a claim
  needs them.  Where a dict is mutated while a `for` loop iterates it, the
  loop's next step raises `RuntimeError`, exactly as CPython does; this is
  modelled by an explicit error outcome.
-/

namespace Forex

/-- Python `l[start:]` for an arbitrary (possibly negative) integer `start`:
a negative index counts from the end and clamps at 0, a nonnegative index
drops that many elements.  Note `l[-0:] = l[0:] = l`. -/
def pySliceFrom {α : Type} (l : List α) (start : Int) : List α :=
  if 0 ≤ start then l.drop start.toNat
  else l.drop ((l.length + start).toNat)

/-! ## TickNormalizer — `CapitalAPIService._handle_websocket_message`
(`app/services/capital.py`, lines 356-411).

The handler parses a frame, and only in the `destination == "quote"` branch,
when `bid and ofr` are both truthy (present and nonzero), builds a
`PriceTick` with `mid = (bid + ask) / 2` and forwards it to the price
callback.  The function below returns the tick forwarded to the callback
(`none` when no tick is produced: subscription frames, ping frames, unknown
frames, and quote frames whose `bid`/`ofr` are missing or zero). -/

/-- A decoded upstream frame, with the fields the handler reads.
`ofr` is Capital.com's name for the ask price. -/
structure RawFrame where
  destination : Option String
  status : Option String
  bid : Option ℚ
  ofr : Option ℚ
deriving DecidableEq, Repr

/-- The canonical tick (`app/models/market.py`, `PriceTick`). -/
structure PriceTick where
  timestamp : Int
  bid : Option ℚ
  ask : Option ℚ
  mid : Option ℚ
  volume : Option Int
deriving DecidableEq, Repr

/-- Python truthiness of an optional number: `None` and `0.0` are falsy. -/
def pyTruthy (x : Option ℚ) : Bool :=
  match x with
  | none => false
  | some q => decide (q ≠ 0)

/-- The tick produced (and forwarded to the price callback) by
`_handle_websocket_message` on a decoded frame; `none` when the frame
produces no tick. -/
def handleWebsocketMessage (now : Int) (f : RawFrame) : Option PriceTick :=
  if f.destination = some "marketData.subscribe" then
    none
  else if f.destination = some "quote" then
    if pyTruthy f.bid && pyTruthy f.ofr then
      match f.bid, f.ofr with
      | some b, some a =>
          some { timestamp := now, bid := some b, ask := some a
                 mid := some ((b + a) / 2), volume := none }
      | _, _ => none
    else none
  else
    none

/-! ## UpstreamStreamClient retry loop — `CapitalAPIService._streaming_loop`
(`app/services/capital.py`, lines 260-313), in the scenario where every
connection attempt fails.

The loop is `for attempt in range(max_retries)`: each iteration makes one
connection attempt; when it fails and `attempt < max_retries - 1` the loop
sleeps the current backoff delay and doubles it (capped at 60); on the last
iteration it instead reports "Max retry attempts reached. Streaming
stopped." and the loop ends. -/

/-- Observable events of the streaming loop. -/
inductive StreamEv where
  | connectAttempt (i : Nat)
  | sleep (d : Nat)
  | stoppedReported
deriving DecidableEq, Repr

/-- One pass of `_streaming_loop` under all-failing connection attempts,
recursing on the number of remaining iterations of
`for attempt in range(max_retries)`. -/
def streamingGo : Nat → Nat → Nat → List StreamEv
  | 0, _, _ => []
  | 1, attempt, _ => [.connectAttempt attempt, .stoppedReported]
  | r + 2, attempt, delay =>
      .connectAttempt attempt :: .sleep delay ::
        streamingGo (r + 1) (attempt + 1) (min (delay * 2) 60)

/-- The event trace of `_streaming_loop` with the given `max_retries` when
every connection attempt fails: initial `retry_delay = 1`, starting at
attempt 0. -/
def streamingLoopAllFail (maxRetries : Nat) : List StreamEv :=
  streamingGo maxRetries 0 1

/-- The backoff delays actually slept during a trace. -/
def sleptDelays (evs : List StreamEv) : List Nat :=
  evs.filterMap fun e =>
    match e with
    | .sleep d => some d
    | _ => none

/-! ## SubscriberRegistry / BoundedHistoryBuffer / LivenessSweeper —
`WebSocketManager` (`app/services/websocket.py`).

The manager's state is its two dicts (`self.connections`, keyed by
connection id — the WebSocket handle itself carries no information the
claims need, so only the keys are kept — and `self.connection_info`) plus
the price-history list.  Dicts are association lists in insertion order. -/

/-- `ConnectionInfo` (`app/models/market.py`): per-connection metadata. -/
structure ConnInfo where
  id : String
  connectedAt : Int
  lastPing : Option Int
  isActive : Bool
deriving DecidableEq, Repr

/-- Python `d[k] = v` on a `connections`-style dict where only keys matter:
overwriting an existing key keeps the key set and order, a new key is
appended. -/
def dictSetKey (l : List String) (k : String) : List String :=
  if l.contains k then l else l ++ [k]

/-- Python `d[k] = v` on the `connection_info` dict: overwrite in place when
the key exists, append otherwise. -/
def dictSetInfo (l : List (String × ConnInfo)) (k : String) (v : ConnInfo) :
    List (String × ConnInfo) :=
  if (l.map Prod.fst).contains k then
    l.map fun p => if p.1 == k then (k, v) else p
  else l ++ [(k, v)]

/-- The `WebSocketManager`'s mutable state: the two dicts and
`self._price_history` (history entries are opaque to the registry; they are
kept as an arbitrary serialized payload, here `Nat`). -/
structure MState where
  connections : List String
  connectionInfo : List (String × ConnInfo)
  priceHistory : List Nat
deriving DecidableEq, Repr

/-- `WebSocketManager.disconnect` (lines 90-106): close the socket if the id
holds one, then delete the id from both dicts; unknown ids are skipped.
Returns the new state and whether a socket was actually closed. -/
def disconnect (st : MState) (cid : String) : MState × Bool :=
  (⟨st.connections.filter (fun k => k != cid),
    st.connectionInfo.filter (fun p => p.1 != cid),
    st.priceHistory⟩,
   st.connections.contains cid)

/-- `WebSocketManager.send_message` (lines 108-131): `false` without state
change for an unknown id; on a send failure (`sendOk = false`) the
connection is disconnected and `false` returned; otherwise `true`. -/
def sendMessage (st : MState) (cid : String) (sendOk : Bool) : MState × Bool :=
  if st.connections.contains cid then
    if sendOk then (st, true) else ((disconnect st cid).1, false)
  else (st, false)

/-- How one `broadcast` call ended: the loop finished and returned the
success count, or the `for connection_id in self.connections` iterator
raised `RuntimeError` because a failing send's `disconnect` mutated the dict
being iterated (CPython raises on the next step of a size-changed dict
iterator, even a step that would have ended the loop). -/
inductive BResult where
  | ok (successCount : Nat)
  | runtimeError
deriving DecidableEq, Repr

/-- Outcome of one `broadcast` call: how it ended, the state it left behind,
and the ids the message was successfully delivered to. -/
structure BroadcastOutcome where
  result : BResult
  state : MState
  delivered : List String
deriving DecidableEq, Repr

/-- The `for connection_id in self.connections:` loop body of
`WebSocketManager.broadcast` (lines 133-152), walking the keys as they were
when the iterator was created; the first failing send disconnects that id
and the loop's next step raises. -/
def broadcastLoop (fails : String → Bool) :
    List String → MState → Nat → List String → BroadcastOutcome
  | [], st, n, del => ⟨.ok n, st, del⟩
  | k :: rest, st, n, del =>
      if fails k then ⟨.runtimeError, (disconnect st k).1, del⟩
      else broadcastLoop fails rest st (n + 1) (del ++ [k])

/-- `WebSocketManager.broadcast`: returns 0 on an empty registry, otherwise
runs the send loop over the current keys.  `fails cid` simulates the send to
`cid` raising. -/
def broadcast (st : MState) (fails : String → Bool) : BroadcastOutcome :=
  if st.connections.isEmpty then ⟨.ok 0, st, []⟩
  else broadcastLoop fails st.connections st 0 []

/-! ### BoundedHistoryBuffer -/

/-- The history-append step of `WebSocketManager.broadcast_price_update`
(lines 154-174): append the serialized tick, then if the list exceeds
`self._max_price_history` keep `self._price_history[-max:]`. -/
def broadcastPriceUpdateAppend {α : Type} (cap : Nat) (hist : List α) (x : α) :
    List α :=
  let h := hist ++ [x]
  if cap < h.length then pySliceFrom h (-(cap : Int)) else h

/-- The buffer contents after a whole sequence of appends, starting empty. -/
def runAppends {α : Type} (cap : Nat) (xs : List α) : List α :=
  xs.foldl (broadcastPriceUpdateAppend cap) []

/-- The history returned by `WebSocketManager._handle_get_price_history`
(lines 243-258): `limit = min(requested, 1000)`, then
`self._price_history[-limit:]` (or `[]` when the buffer is empty). -/
def handleGetPriceHistory {α : Type} (hist : List α) (limit : Int) : List α :=
  let l := min limit 1000
  if hist.isEmpty then [] else pySliceFrom hist (-l)

/-! ### register / connect -/

/-- A message sent to one downstream connection, reduced to the fields the
claims speak about. -/
inductive SentMsg where
  | connectionEstablished (connectionId : String)
  | priceHistory (history : List Nat) (count : Nat)
deriving DecidableEq, Repr

/-- `WebSocketManager._send_price_history` (lines 260-273): only when the
buffer is nonempty, send the last 50 entries to the one connection. -/
def sendPriceHistoryMsgs (hist : List Nat) : List SentMsg :=
  if hist.isEmpty then []
  else
    let recent := pySliceFrom hist (-(50 : Int))
    [.priceHistory recent recent.length]

/-- Outcome of `WebSocketManager.connect`: refused with a close code and
reason (and an exception raised), or accepted with the assigned id and the
messages sent to the new connection alone. -/
inductive ConnectOutcome where
  | refused (closeCode : Nat) (closeReason : String)
  | accepted (assignedId : String) (sent : List SentMsg)
deriving DecidableEq, Repr

/-- `WebSocketManager.connect` (lines 55-88): refuse with close code 1008
when `len(self.connections) >= self._max_connections`, leaving the state
unchanged; otherwise register the fresh id in both dicts, send the welcome
message carrying the id, then replay recent history to it alone.  `newId`
stands for the generated UUID and `now` for `datetime.now()`; the sends to
the just-accepted socket are modelled as succeeding. -/
def connect (maxConns : Nat) (now : Int) (st : MState) (newId : String) :
    ConnectOutcome × MState :=
  if maxConns ≤ st.connections.length then
    (.refused 1008 "Maximum connections exceeded", st)
  else
    let st1 : MState :=
      ⟨dictSetKey st.connections newId,
       dictSetInfo st.connectionInfo newId
         ⟨newId, now, none, true⟩,
       st.priceHistory⟩
    (.accepted newId
      (.connectionEstablished newId :: sendPriceHistoryMsgs st.priceHistory),
     st1)

/-! ### heartbeat and liveness sweeping -/

/-- The heartbeat-recording part of `WebSocketManager._handle_ping`
(lines 214-221): set `last_ping = now` when the id is known, then pong the
client (a failing pong send disconnects, via `send_message`). -/
def handlePing (st : MState) (cid : String) (now : Int) (sendOk : Bool) :
    MState :=
  let st1 : MState :=
    ⟨st.connections,
     st.connectionInfo.map fun p =>
       if p.1 == cid then (p.1, { p.2 with lastPing := some now }) else p,
     st.priceHistory⟩
  (sendMessage st1 cid sendOk).1

/-- `info.last_ping or info.connected_at` — a datetime is always truthy, so
this is the last ping when one exists, else the connect time. -/
def lastActivity (i : ConnInfo) : Int :=
  i.lastPing.getD i.connectedAt

/-- The `stale_connections` list collected by one wake of
`WebSocketManager._cleanup_loop` (lines 311-334): every id whose last
activity is more than 300 units (5 minutes) before `now`. -/
def staleIds (now : Int) (st : MState) : List String :=
  (st.connectionInfo.filter fun p => decide (300 < now - lastActivity p.2)).map
    Prod.fst

/-- One step of the cleanup loop's second phase: disconnect one stale id,
recording it when a socket was actually closed. -/
def sweepStep (acc : MState × List String) (cid : String) :
    MState × List String :=
  let r := disconnect acc.1 cid
  (r.1, if r.2 then acc.2 ++ [cid] else acc.2)

/-- One wake of `WebSocketManager._cleanup_loop`: collect the stale ids,
then disconnect each.  Returns the new state and the ids whose socket was
closed. -/
def cleanupSweep (now : Int) (st : MState) : MState × List String :=
  (staleIds now st).foldl sweepStep (st, [])

/-! ## Theorems -/

/-- C2, counterexample: the claim says a quote frame carrying only
`bid = 1900.0` (no ask) yields a tick with `mid = 1900.0`; the code requires
both `bid` and `ofr` to be truthy (`if bid and ask:`), so this frame yields
no tick at all. -/
theorem C2_only_bid_yields_no_tick :
    handleWebsocketMessage 0
      { destination := some "quote", status := none
        bid := some 1900, ofr := none } = none := by
  decide

/-- C2, amended: `normalize` returns a tick with `mid = (bid + ask) / 2`
when the frame is a quote frame whose bid and ask are both present and
nonzero; in every other case — a frame that is not a quote frame, or one
missing bid or ask, or one with a zero price — it returns no tick; and the
frame `bid = 1900.0, ask = 1900.5` yields `mid = 1900.25`. -/
theorem C2_normalize_mid (now : Int) (b a : ℚ) (f : RawFrame)
    (hb : b ≠ 0) (ha : a ≠ 0) :
    handleWebsocketMessage now
        { destination := some "quote", status := none
          bid := some b, ofr := some a } =
      some { timestamp := now, bid := some b, ask := some a
             mid := some ((b + a) / 2), volume := none } ∧
    (¬ (f.destination = some "quote" ∧
          (∃ b', f.bid = some b' ∧ b' ≠ 0) ∧
          (∃ a', f.ofr = some a' ∧ a' ≠ 0)) →
      handleWebsocketMessage now f = none) ∧
    handleWebsocketMessage 0
        { destination := some "quote", status := none
          bid := some 1900, ofr := some (3801 / 2) } =
      some { timestamp := 0, bid := some 1900, ask := some (3801 / 2)
             mid := some (7601 / 4), volume := none } := by
  refine ⟨?_, ?_, ?_⟩
  · simp [handleWebsocketMessage, pyTruthy, hb, ha]
  · intro hno
    by_cases hd1 : f.destination = some "marketData.subscribe"
    · simp [handleWebsocketMessage, hd1]
    · by_cases hd2 : f.destination = some "quote"
      · have hcond : (pyTruthy f.bid && pyTruthy f.ofr) = false := by
          cases hb' : f.bid with
          | none => simp [pyTruthy]
          | some b' =>
            cases ha' : f.ofr with
            | none => simp [pyTruthy]
            | some a' =>
              by_cases hbz : b' = 0
              · simp [pyTruthy, hbz]
              · by_cases haz : a' = 0
                · simp [pyTruthy, haz]
                · exact absurd ⟨hd2, ⟨b', hb', hbz⟩, ⟨a', ha', haz⟩⟩ hno
        simp [handleWebsocketMessage, hd1, hd2, hcond]
      · simp [handleWebsocketMessage, hd1, hd2]
  · norm_num [handleWebsocketMessage, pyTruthy]
    intro h
    exact absurd h (by decide)

/-- C2, witness for `C2_normalize_mid` at `now = 0`, `b = 1`, `a = 3`,
discharging the no-tick clause both at the all-empty frame and at a quote
frame with a zero bid. -/
theorem C2_normalize_mid_witness :
    handleWebsocketMessage 0
        { destination := some "quote", status := none
          bid := some 1, ofr := some 3 } =
      some { timestamp := 0, bid := some 1, ask := some 3
             mid := some ((1 + 3) / 2), volume := none } ∧
    handleWebsocketMessage 0 (RawFrame.mk none none none none) = none ∧
    handleWebsocketMessage 0
        { destination := some "quote", status := none
          bid := some 0, ofr := some 5 } = none ∧
    handleWebsocketMessage 0
        { destination := some "quote", status := none
          bid := some 1900, ofr := some (3801 / 2) } =
      some { timestamp := 0, bid := some 1900, ask := some (3801 / 2)
             mid := some (7601 / 4), volume := none } :=
  ⟨(C2_normalize_mid 0 1 3 (RawFrame.mk none none none none)
      (by norm_num) (by norm_num)).1,
   (C2_normalize_mid 0 1 3 (RawFrame.mk none none none none)
      (by norm_num) (by norm_num)).2.1 (by simp),
   (C2_normalize_mid 0 1 3
      { destination := some "quote", status := none
        bid := some 0, ofr := some 5 }
      (by norm_num) (by norm_num)).2.1 (by simp),
   (C2_normalize_mid 0 1 3 (RawFrame.mk none none none none)
      (by norm_num) (by norm_num)).2.2⟩

/-- C3, counterexample: with `max_retries = 5` and all five connection
attempts failing, the delays actually slept are `[1, 2, 4, 8]` — the loop
only sleeps when `attempt < max_retries - 1`, so there are four backoff
sleeps between the five attempts, not the claimed `[1, 2, 4, 8, 16]`. -/
theorem C3_delays_are_four_not_five :
    sleptDelays (streamingLoopAllFail 5) = [1, 2, 4, 8] ∧
    sleptDelays (streamingLoopAllFail 5) ≠ [1, 2, 4, 8, 16] := by
  decide

/-- C3, amended: with `max_retries = 5` and five consecutive connect
failures, the loop makes exactly attempts 0..4, sleeps `1, 2, 4, 8` units
between consecutive attempts (doubling, capped at 60, with no sleep after
the final failure), reports streaming stopped exactly once, after the 5th
failure, and makes no 6th attempt. -/
theorem C3_retry_loop_trace :
    streamingLoopAllFail 5 =
      [.connectAttempt 0, .sleep 1, .connectAttempt 1, .sleep 2,
       .connectAttempt 2, .sleep 4, .connectAttempt 3, .sleep 8,
       .connectAttempt 4, .stoppedReported] ∧
    sleptDelays (streamingLoopAllFail 5) = [1, 2, 4, 8] ∧
    (streamingLoopAllFail 5).count .stoppedReported = 1 ∧
    ((streamingLoopAllFail 5).getLast? = some .stoppedReported) ∧
    StreamEv.connectAttempt 5 ∉ streamingLoopAllFail 5 := by
  decide

/-- C9: `unregister` (= `disconnect`) is idempotent — running it twice with
the same id leaves the same state as running it once — and removing an id
present in neither dict is a no-op on the registry state. -/
theorem C9_unregister_idempotent (st : MState) (cid : String) :
    (disconnect (disconnect st cid).1 cid).1 = (disconnect st cid).1 ∧
    (cid ∉ st.connections → (∀ p ∈ st.connectionInfo, p.1 ≠ cid) →
      (disconnect st cid).1 = st) := by
  constructor
  · simp [disconnect, List.filter_filter]
  · intro h1 h2
    cases st with
    | mk conns infos ph =>
      simp only [disconnect]
      congr 1
      · exact List.filter_eq_self.mpr fun a ha => by
          simp only [bne_iff_ne, ne_eq]
          rintro rfl
          exact h1 ha
      · exact List.filter_eq_self.mpr fun p hp => by
          simpa [bne_iff_ne] using h2 p hp

/-- C9, witness for `C9_unregister_idempotent`: a one-subscriber registry
and the unknown id `"b"`. -/
theorem C9_unregister_idempotent_witness :
    (disconnect
        (disconnect ⟨["a"], [("a", ⟨"a", 0, none, true⟩)], []⟩ "b").1 "b").1 =
      (disconnect ⟨["a"], [("a", ⟨"a", 0, none, true⟩)], []⟩ "b").1 ∧
    (disconnect ⟨["a"], [("a", ⟨"a", 0, none, true⟩)], []⟩ "b").1 =
      ⟨["a"], [("a", ⟨"a", 0, none, true⟩)], []⟩ :=
  ⟨(C9_unregister_idempotent ⟨["a"], [("a", ⟨"a", 0, none, true⟩)], []⟩
      "b").1,
   (C9_unregister_idempotent ⟨["a"], [("a", ⟨"a", 0, none, true⟩)], []⟩
      "b").2 (by decide) (by decide)⟩

/-- C5: whenever the connection count has reached the configured maximum,
`connect` refuses: the downstream socket is closed with code 1008 and the
reason "Maximum connections exceeded", an exception is raised instead of an
id being returned, and the registry state is unchanged (no record
created). -/
theorem C5_register_capacity_refused (maxConns : Nat) (now : Int)
    (st : MState) (newId : String)
    (h : maxConns ≤ st.connections.length) :
    connect maxConns now st newId =
      (.refused 1008 "Maximum connections exceeded", st) := by
  simp [connect, h]

/-- C5, witness for `C5_register_capacity_refused`: a full one-slot
registry. -/
theorem C5_register_capacity_refused_witness :
    1 ≤ (MState.mk ["a"] [("a", ⟨"a", 0, none, true⟩)] []).connections.length ∧
    connect 1 0 ⟨["a"], [("a", ⟨"a", 0, none, true⟩)], []⟩ "b" =
      (.refused 1008 "Maximum connections exceeded",
       ⟨["a"], [("a", ⟨"a", 0, none, true⟩)], []⟩) :=
  ⟨by decide,
   C5_register_capacity_refused 1 0 ⟨["a"], [("a", ⟨"a", 0, none, true⟩)], []⟩
     "b" (by decide)⟩

/-- C7, counterexample: the claim says the replayed history snapshot is sent
at registration time even when it is empty; but `_send_price_history` does
nothing when the buffer is empty (`if self._price_history:`), so a `connect`
against an empty buffer sends exactly one message — the welcome — and no
history message at all. -/
theorem C7_empty_history_not_replayed :
    connect 100 0 ⟨[], [], []⟩ "c1" =
      (.accepted "c1" [.connectionEstablished "c1"],
       ⟨["c1"], [("c1", ⟨"c1", 0, none, true⟩)], []⟩) := by
  decide

/-- C7, amended: a newly registered subscriber is sent the welcome
acknowledgement carrying its assigned id first, followed — only when the
history buffer is nonempty — by a replay of the last 50 buffer entries sent
to it alone; with an empty buffer no history message is sent.  The new id is
registered. -/
theorem C7_register_welcome_then_history (maxConns : Nat) (now : Int)
    (st : MState) (newId : String)
    (h : st.connections.length < maxConns) :
    (connect maxConns now st newId).1 =
      .accepted newId
        (.connectionEstablished newId ::
          (if st.priceHistory = [] then []
           else
             [.priceHistory (pySliceFrom st.priceHistory (-(50 : Int)))
                (pySliceFrom st.priceHistory (-(50 : Int))).length])) ∧
    newId ∈ (connect maxConns now st newId).2.connections := by
  have h' : ¬ maxConns ≤ st.connections.length := not_le.mpr h
  constructor
  · simp [connect, h', sendPriceHistoryMsgs, List.isEmpty_iff]
  · simp only [connect, h', if_false, dictSetKey]
    split
    · next hc => exact List.mem_of_elem_eq_true hc
    · exact List.mem_append.mpr (Or.inr (List.mem_singleton.mpr rfl))

/-- C7, witness for `C7_register_welcome_then_history`: an empty registry
with a two-entry history buffer. -/
theorem C7_register_welcome_then_history_witness :
    (connect 100 0 ⟨[], [], [9, 8]⟩ "c1").1 =
      .accepted "c1"
        (.connectionEstablished "c1" ::
          (if ([9, 8] : List Nat) = [] then []
           else
             [.priceHistory (pySliceFrom [9, 8] (-(50 : Int)))
                (pySliceFrom ([9, 8] : List Nat) (-(50 : Int))).length])) ∧
    "c1" ∈ (connect 100 0 ⟨[], [], [9, 8]⟩ "c1").2.connections :=
  C7_register_welcome_then_history 100 0 ⟨[], [], [9, 8]⟩ "c1" (by decide)

/-- C1: evaluating `broadcast` at the claim's scenario — two registered
subscribers `"a"`, `"b"`, with only `"a"`'s send failing.  `send_message`'s
failure path disconnects `"a"`, deleting it from `self.connections` while
`broadcast`'s `for` loop is iterating that dict, so the loop's next step
raises `RuntimeError`: the tick is delivered to nobody else (`"b"` gets
nothing) and `broadcast` does not return.  The second conjunct shows that
with no failing send the same registry receives the tick everywhere, so the
abort is caused by the single failure. -/
theorem C1_broadcast_aborts_on_single_failure :
    broadcast
        ⟨["a", "b"],
         [("a", ⟨"a", 0, none, true⟩), ("b", ⟨"b", 0, none, true⟩)], []⟩
        (fun k => k == "a") =
      ⟨.runtimeError, ⟨["b"], [("b", ⟨"b", 0, none, true⟩)], []⟩, []⟩ ∧
    broadcast
        ⟨["a", "b"],
         [("a", ⟨"a", 0, none, true⟩), ("b", ⟨"b", 0, none, true⟩)], []⟩
        (fun _ => false) =
      ⟨.ok 2,
       ⟨["a", "b"],
        [("a", ⟨"a", 0, none, true⟩), ("b", ⟨"b", 0, none, true⟩)], []⟩,
       ["a", "b"]⟩ := by
  decide

/-- Helper: for a positively requested limit, `_handle_get_price_history`
returns the suffix of the buffer of length `min limit 1000` (shorter when
the buffer itself is shorter). -/
theorem handleGetPriceHistory_eq_drop {α : Type} (hist : List α) (limit : Int)
    (h : 1 ≤ limit) :
    handleGetPriceHistory hist limit =
      hist.drop (hist.length - (min limit 1000).toNat) := by
  have hmin : (1 : Int) ≤ min limit 1000 := le_min h (by norm_num)
  by_cases he : hist = []
  · subst he; simp [handleGetPriceHistory]
  · have hne : hist.isEmpty = false := by simpa [List.isEmpty_iff] using he
    have hneg : ¬ (0 ≤ -(min limit 1000)) := by omega
    simp only [handleGetPriceHistory, hne, Bool.false_eq_true, if_false,
      pySliceFrom, hneg]
    congr 1
    omega

/-- Helper: with capacity at least 1, the buffer left by a sequence of
appends through `broadcast_price_update` is exactly the suffix of the
appended sequence that fits the capacity. -/
theorem runAppends_eq_drop {α : Type} (cap : Nat) (hcap : 1 ≤ cap)
    (xs : List α) :
    runAppends cap xs = xs.drop (xs.length - cap) := by
  induction xs using List.reverseRecOn with
  | nil => simp [runAppends]
  | append_singleton xs x ih =>
      have hfold : runAppends cap (xs ++ [x]) =
          broadcastPriceUpdateAppend cap (runAppends cap xs) x := by
        simp [runAppends, List.foldl_append]
      rw [hfold, ih]
      by_cases hc : cap ≤ xs.length
      · have hcond :
            cap < (xs.drop (xs.length - cap) ++ [x]).length := by
          simp; omega
        have hneg : ¬ ((0 : Int) ≤ -(cap : Int)) := by omega
        simp only [broadcastPriceUpdateAppend, if_pos hcond, pySliceFrom,
          if_neg hneg]
        have harg :
            (((xs.drop (xs.length - cap) ++ [x]).length : Int) +
                -(cap : Int)).toNat = 1 := by
          simp; omega
        rw [harg,
          List.drop_append_of_le_length (by simp; omega),
          List.drop_append_of_le_length (by simp; omega),
          List.drop_drop]
        congr 2
        simp
        omega
      · have hd0 : xs.length - cap = 0 := by omega
        rw [hd0, List.drop_zero]
        have hcond : ¬ cap < (xs ++ [x]).length := by simp; omega
        simp only [broadcastPriceUpdateAppend, if_neg hcond]
        have hd0' : (xs ++ [x]).length - cap = 0 := by simp; omega
        rw [hd0', List.drop_zero]

/-- C6, counterexample: the claim quantifies over every requested limit, but
a request with `limit = 0` hits Python's `history[-0:] = history` corner:
the handler returns the whole buffer — here one entry, which is more than
the requested 0. -/
theorem C6_limit_zero_returns_whole_buffer :
    handleGetPriceHistory ([0] : List Nat) 0 = [0] ∧
    ¬ ((handleGetPriceHistory ([0] : List Nat) 0).length ≤ 0) := by
  decide

/-- C6, amended: for every requested limit that is at least 1, the handler
returns the suffix of the buffer of length `min limit 1000` (all of it when
the buffer is shorter): at most `min limit 1000 ≤ limit` entries, the most
recent ones, newest-last, with the effective limit clamped to the hard
maximum 1000; the buffer itself is not modified (the handler only slices
it). -/
theorem C6_snapshot_clamped (hist : List Nat) (limit : Int)
    (h : 1 ≤ limit) :
    handleGetPriceHistory hist limit =
      hist.drop (hist.length - (min limit 1000).toNat) ∧
    ((handleGetPriceHistory hist limit).length : Int) ≤ min limit 1000 ∧
    min limit 1000 ≤ limit ∧ min limit 1000 ≤ 1000 := by
  refine ⟨handleGetPriceHistory_eq_drop hist limit h, ?_, min_le_left _ _,
    min_le_right _ _⟩
  rw [handleGetPriceHistory_eq_drop hist limit h, List.length_drop]
  omega

/-- C6, witness for `C6_snapshot_clamped`: a three-entry buffer and a
request for 2. -/
theorem C6_snapshot_clamped_witness :
    handleGetPriceHistory ([4, 5, 6] : List Nat) 2 =
      [4, 5, 6].drop ([4, 5, 6].length - (min (2 : Int) 1000).toNat) ∧
    ((handleGetPriceHistory ([4, 5, 6] : List Nat) 2).length : Int) ≤
      min 2 1000 ∧
    (min (2 : Int) 1000) ≤ 2 ∧ (min (2 : Int) 1000) ≤ 1000 :=
  C6_snapshot_clamped [4, 5, 6] 2 (by norm_num)

set_option maxRecDepth 4000 in
/-- C4, counterexample, two concrete failures of the claim as stated:
with capacity `C = 0` (Python's `history[-0:]` keeps everything, so the
"ring" does not evict) one append followed by `snapshot(0 + 1)` returns one
entry, more than `C = 0`; and with capacity `C = 1001`, after 1001 appends,
`snapshot(1001 + 0)` is clamped to 1000 entries, so it does not return the
last 1001 appended ticks. -/
theorem C4_capacity_edge_failures :
    (handleGetPriceHistory (runAppends 0 [7]) ((0 : Int) + 1) = [7] ∧
      ¬ ((handleGetPriceHistory (runAppends 0 [7]) ((0 : Int) + 1)).length ≤
          0)) ∧
    handleGetPriceHistory (runAppends 1001 (List.range 1001))
        ((1001 : Int) + 0) ≠ List.range 1001 := by
  constructor
  · decide
  · intro hEq
    have h1 : runAppends 1001 (List.range 1001) = List.range 1001 := by
      rw [runAppends_eq_drop 1001 (by norm_num)]
      simp
    rw [h1, handleGetPriceHistory_eq_drop _ _ (by norm_num)] at hEq
    have hlen := congrArg List.length hEq
    simp only [List.length_drop, List.length_range] at hlen
    omega

/-- C4, amended: for a capacity `C ≥ 1` and any sequence of appends,
`snapshot(C + k)` never returns more than `C` entries; and when moreover
`C ≤ 1000` (the handler's hard clamp) and at least `C` ticks have been
appended, the entries returned are exactly the last `C` appended ticks, in
oldest-first (append) order. -/
theorem C4_buffer_bounded (C k : Nat) (xs : List Nat) (hC : 1 ≤ C) :
    (handleGetPriceHistory (runAppends C xs) ((C : Int) + (k : Int))).length ≤
      C ∧
    (C ≤ 1000 → C ≤ xs.length →
      handleGetPriceHistory (runAppends C xs) ((C : Int) + (k : Int)) =
        xs.drop (xs.length - C)) := by
  have hlim : (1 : Int) ≤ (C : Int) + (k : Int) := by omega
  have hbuf := runAppends_eq_drop C hC xs
  have hsnap := handleGetPriceHistory_eq_drop (runAppends C xs)
    ((C : Int) + (k : Int)) hlim
  constructor
  · rw [hsnap, List.length_drop, hbuf, List.length_drop]
    omega
  · intro hC1000 hlen
    rw [hsnap, hbuf]
    have hblen : (xs.drop (xs.length - C)).length = C := by
      rw [List.length_drop]; omega
    have hmin : (min ((C : Int) + (k : Int)) 1000).toNat ≥ C := by omega
    rw [hblen]
    have : C - (min ((C : Int) + (k : Int)) 1000).toNat = 0 := by omega
    rw [this, List.drop_zero]

/-- C4, witness for `C4_buffer_bounded`: capacity 2, three appends,
`snapshot(2 + 1)`. -/
theorem C4_buffer_bounded_witness :
    ((handleGetPriceHistory (runAppends 2 [7, 8, 9])
        ((2 : Int) + (1 : Int))).length ≤ 2) ∧
    handleGetPriceHistory (runAppends 2 [7, 8, 9]) ((2 : Int) + (1 : Int)) =
      [7, 8, 9].drop (([7, 8, 9] : List Nat).length - 2) :=
  ⟨(C4_buffer_bounded 2 1 [7, 8, 9] (by norm_num)).1,
   (C4_buffer_bounded 2 1 [7, 8, 9] (by norm_num)).2 (by norm_num)
     (by decide)⟩

/-- Helper: disconnecting never adds a key to `connection_info`. -/
theorem mem_keys_of_mem_keys_disconnect (st : MState) (c k : String)
    (h : k ∈ ((disconnect st c).1.connectionInfo.map Prod.fst)) :
    k ∈ (st.connectionInfo.map Prod.fst) := by
  rcases List.mem_map.mp h with ⟨p, hp, rfl⟩
  exact List.mem_map.mpr ⟨p, (List.mem_filter.mp hp).1, rfl⟩

/-- Helper: after disconnecting `c`, `c` is no longer a `connection_info`
key. -/
theorem not_mem_keys_disconnect_self (st : MState) (c : String) :
    c ∉ ((disconnect st c).1.connectionInfo.map Prod.fst) := by
  intro h
  rcases List.mem_map.mp h with ⟨p, hp, hpc⟩
  have hne := (List.mem_filter.mp hp).2
  rw [hpc] at hne
  simp at hne

/-- Helper: disconnecting `c` keeps any pair keyed by a different id. -/
theorem mem_connInfo_disconnect_of_ne (st : MState) (c : String)
    (p : String × ConnInfo) (hp : p ∈ st.connectionInfo) (hne : p.1 ≠ c) :
    p ∈ (disconnect st c).1.connectionInfo := by
  exact List.mem_filter.mpr ⟨hp, by simpa using hne⟩

/-- Helper: disconnecting `c` keeps any other id's socket registered. -/
theorem mem_connections_disconnect_of_ne (st : MState) (c k : String)
    (hk : k ∈ st.connections) (hne : k ≠ c) :
    k ∈ (disconnect st c).1.connections := by
  exact List.mem_filter.mpr ⟨hk, by simpa using hne⟩

/-- Helper: the sweep fold never re-adds a `connection_info` key. -/
theorem sweepFold_keys_subset (stale : List String)
    (acc : MState × List String) (k : String)
    (h : k ∉ (acc.1.connectionInfo.map Prod.fst)) :
    k ∉ ((stale.foldl sweepStep acc).1.connectionInfo.map Prod.fst) := by
  induction stale generalizing acc with
  | nil => exact h
  | cons c rest ih =>
      refine ih _ ?_
      intro hmem
      exact h (mem_keys_of_mem_keys_disconnect acc.1 c k hmem)

/-- Helper: the sweep fold only appends to the closed-id list. -/
theorem sweepFold_closed_mono (stale : List String)
    (acc : MState × List String) (k : String) (h : k ∈ acc.2) :
    k ∈ (stale.foldl sweepStep acc).2 := by
  induction stale generalizing acc with
  | nil => exact h
  | cons c rest ih =>
      refine ih _ ?_
      simp only [sweepStep]
      split
      · exact List.mem_append.mpr (Or.inl h)
      · exact h

/-- Helper: every id in the swept list ends up outside the
`connection_info` keys. -/
theorem sweepFold_removes (stale : List String) (acc : MState × List String)
    (id : String) (h : id ∈ stale) :
    id ∉ ((stale.foldl sweepStep acc).1.connectionInfo.map Prod.fst) := by
  induction stale generalizing acc with
  | nil => cases h
  | cons c rest ih =>
      rcases List.mem_cons.mp h with rfl | hmem
      · exact sweepFold_keys_subset rest (sweepStep acc id) id
          (not_mem_keys_disconnect_self acc.1 id)
      · exact ih (sweepStep acc c) hmem

/-- Helper: an id in the swept list whose socket is registered when its turn
comes is recorded as closed; registration survives earlier sweeps of other
ids. -/
theorem sweepFold_closes (stale : List String) (acc : MState × List String)
    (id : String) (h : id ∈ stale) (hconn : id ∈ acc.1.connections) :
    id ∈ (stale.foldl sweepStep acc).2 := by
  induction stale generalizing acc with
  | nil => cases h
  | cons c rest ih =>
      rcases List.mem_cons.mp h with rfl | hmem
      · refine sweepFold_closed_mono rest (sweepStep acc id) id ?_
        simp only [sweepStep, disconnect]
        simp [hconn]
      · by_cases hcid : id = c
        · subst hcid
          refine sweepFold_closed_mono rest (sweepStep acc id) id ?_
          simp only [sweepStep, disconnect]
          simp [hconn]
        · exact ih (sweepStep acc c) hmem
            (mem_connections_disconnect_of_ne acc.1 c id hconn hcid)

/-- Helper: a pair whose key is hit by no sweep survives the fold. -/
theorem sweepFold_retains (stale : List String) (acc : MState × List String)
    (p : String × ConnInfo) (hp : p ∈ acc.1.connectionInfo)
    (h : ∀ c ∈ stale, c ≠ p.1) :
    p ∈ (stale.foldl sweepStep acc).1.connectionInfo := by
  induction stale generalizing acc with
  | nil => exact hp
  | cons c rest ih =>
      refine ih _ ?_ fun c' hc' => h c' (List.mem_cons_of_mem c hc')
      exact mem_connInfo_disconnect_of_ne acc.1 c p hp
        (fun e => h c (List.mem_cons_self c rest) e.symm)

/-- Helper: with duplicate-free keys (as in any state reachable from a
Python dict), a key determines its pair. -/
theorem eq_of_mem_of_nodup_keys (l : List (String × ConnInfo))
    (hnd : (l.map Prod.fst).Nodup) (k : String) (v w : ConnInfo)
    (hv : (k, v) ∈ l) (hw : (k, w) ∈ l) : v = w := by
  induction l with
  | nil => cases hv
  | cons p rest ih =>
      rcases List.nodup_cons.mp hnd with ⟨hhead, hrest⟩
      rcases List.mem_cons.mp hv with rfl | hv'
      · rcases List.mem_cons.mp hw with hw0 | hw'
        · exact (congrArg Prod.snd hw0).symm
        · exact absurd (List.mem_map.mpr ⟨(k, w), hw', rfl⟩) hhead
      · rcases List.mem_cons.mp hw with rfl | hw'
        · exact absurd (List.mem_map.mpr ⟨(k, v), hv', rfl⟩) hhead
        · exact ih hrest hv' hw'

/-- C8: on one sweep, every subscriber whose last activity (last heartbeat,
or connection time if it never heartbeated) lies strictly more than 300
units in the past is removed from the registry, and — when its socket is
registered — recorded as closed; every subscriber within the threshold
survives with its metadata intact.  Instantiated at 301 and 299 units by
the witness. -/
theorem C8_sweeper_evicts_stale (now : Int) (st : MState) (id : String)
    (info : ConnInfo) (hmem : (id, info) ∈ st.connectionInfo)
    (hnd : (st.connectionInfo.map Prod.fst).Nodup) :
    (300 < now - lastActivity info →
      id ∉ ((cleanupSweep now st).1.connectionInfo.map Prod.fst) ∧
      (id ∈ st.connections → id ∈ (cleanupSweep now st).2)) ∧
    (now - lastActivity info ≤ 300 →
      (id, info) ∈ (cleanupSweep now st).1.connectionInfo) := by
  constructor
  · intro hstale
    have hidstale : id ∈ staleIds now st := by
      refine List.mem_map.mpr ⟨(id, info), ?_, rfl⟩
      exact List.mem_filter.mpr ⟨hmem, by simpa using hstale⟩
    exact ⟨sweepFold_removes _ _ id hidstale,
      fun hconn => sweepFold_closes _ _ id hidstale hconn⟩
  · intro hfresh
    refine sweepFold_retains _ _ (id, info) hmem ?_
    intro c hc hcid
    subst hcid
    rcases List.mem_map.mp hc with ⟨p, hpf, hp1⟩
    rcases List.mem_filter.mp hpf with ⟨hpmem, hpstale⟩
    have hpinfo : p.2 = info := by
      have : (c, p.2) ∈ st.connectionInfo := by
        rw [← hp1]; exact hpmem
      exact eq_of_mem_of_nodup_keys st.connectionInfo hnd c p.2 info this hmem
    rw [hpinfo] at hpstale
    simp at hpstale
    omega

/-- C8, witness for `C8_sweeper_evicts_stale`: at `now = 1000`, subscriber
`"a"` (connected at 699, never heartbeated — 301 units stale) is evicted and
recorded as closed, and subscriber `"b"` (last heartbeat at 701 — 299 units)
is retained with its metadata. -/
theorem C8_sweeper_evicts_stale_witness :
    "a" ∉
      ((cleanupSweep 1000
          ⟨["a", "b"],
           [("a", ⟨"a", 699, none, true⟩),
            ("b", ⟨"b", 0, some 701, true⟩)], []⟩).1.connectionInfo.map
        Prod.fst) ∧
    "a" ∈
      (cleanupSweep 1000
          ⟨["a", "b"],
           [("a", ⟨"a", 699, none, true⟩),
            ("b", ⟨"b", 0, some 701, true⟩)], []⟩).2 ∧
    ("b", (⟨"b", 0, some 701, true⟩ : ConnInfo)) ∈
      (cleanupSweep 1000
          ⟨["a", "b"],
           [("a", ⟨"a", 699, none, true⟩),
            ("b", ⟨"b", 0, some 701, true⟩)], []⟩).1.connectionInfo :=
  ⟨((C8_sweeper_evicts_stale 1000
        ⟨["a", "b"],
         [("a", ⟨"a", 699, none, true⟩), ("b", ⟨"b", 0, some 701, true⟩)], []⟩
        "a" ⟨"a", 699, none, true⟩ (by decide) (by decide)).1
      (by decide)).1,
   ((C8_sweeper_evicts_stale 1000
        ⟨["a", "b"],
         [("a", ⟨"a", 699, none, true⟩), ("b", ⟨"b", 0, some 701, true⟩)], []⟩
        "a" ⟨"a", 699, none, true⟩ (by decide) (by decide)).1
      (by decide)).2 (by decide),
   (C8_sweeper_evicts_stale 1000
        ⟨["a", "b"],
         [("a", ⟨"a", 699, none, true⟩), ("b", ⟨"b", 0, some 701, true⟩)], []⟩
        "b" ⟨"b", 0, some 701, true⟩ (by decide) (by decide)).2 (by decide)⟩

/-- The two dicts agree on their keys, in insertion order: the connection
ids holding a live socket are exactly the ids with metadata.  (It implies
the set equality the invariant claim speaks about.) -/
def keysSync (st : MState) : Prop :=
  st.connections = st.connectionInfo.map Prod.fst

instance (st : MState) : Decidable (keysSync st) := by
  unfold keysSync; infer_instance

/-- Helper: deleting a key commutes with taking the key list. -/
theorem keys_filter_ne (l : List (String × ConnInfo)) (c : String) :
    (l.filter fun p => p.1 != c).map Prod.fst =
      (l.map Prod.fst).filter (fun k => k != c) := by
  induction l with
  | nil => rfl
  | cons p rest ih =>
      by_cases hp : p.1 = c
      · simp [hp, ih]
      · simp only [List.filter_cons, List.map_cons]
        have : (p.1 != c) = true := by simpa using hp
        simp [this, ih]

/-- Helper: overwriting a value in place keeps the key list. -/
theorem keys_overwrite (l : List (String × ConnInfo))
    (f : String × ConnInfo → ConnInfo) (c : String) :
    (l.map fun p => if p.1 == c then (c, f p) else p).map Prod.fst =
      l.map Prod.fst := by
  rw [List.map_map]
  refine List.map_congr_left fun p _ => ?_
  by_cases hp : p.1 = c
  · simp [hp]
  · simp [hp]

/-- Helper: `disconnect` keeps the two key lists equal. -/
theorem keysSync_disconnect (st : MState) (c : String) (h : keysSync st) :
    keysSync (disconnect st c).1 := by
  unfold keysSync at *
  simp only [disconnect, keys_filter_ne, h]

/-- Helper: `send_message` keeps the two key lists equal. -/
theorem keysSync_sendMessage (st : MState) (c : String) (ok : Bool)
    (h : keysSync st) : keysSync (sendMessage st c ok).1 := by
  unfold sendMessage
  split
  · split
    · exact h
    · exact keysSync_disconnect st c h
  · exact h

/-- Helper: the broadcast loop's final state is the starting state or a
single disconnect of it, so it keeps the two key lists equal. -/
theorem keysSync_broadcastLoop (fails : String → Bool) (ks : List String)
    (st : MState) (n : Nat) (del : List String) (h : keysSync st) :
    keysSync (broadcastLoop fails ks st n del).state := by
  induction ks generalizing n del with
  | nil => exact h
  | cons k rest ih =>
      simp only [broadcastLoop]
      split
      · exact keysSync_disconnect st k h
      · exact ih _ _

/-- Helper: the sweep fold disconnects repeatedly, so it keeps the two key
lists equal. -/
theorem keysSync_sweepFold (stale : List String) (acc : MState × List String)
    (h : keysSync acc.1) : keysSync (stale.foldl sweepStep acc).1 := by
  induction stale generalizing acc with
  | nil => exact h
  | cons c rest ih => exact ih _ (keysSync_disconnect acc.1 c h)

/-- C10: the registry's two internal maps stay in sync.  Starting from key
lists that agree (as the constructor's empty dicts do — last conjunct),
every operation of the manager — `connect` (refused or accepted),
`disconnect`, `send_message` (either outcome), `broadcast` (also on its
`RuntimeError` path), heartbeat handling (`_handle_ping`, either pong
outcome) and the cleanup sweep — leaves them agreeing, so the set of ids in
`connections` always equals the set of ids in `connection_info`: no
subscriber has a live channel without metadata or metadata without a
channel. -/
theorem C10_maps_in_sync (maxConns : Nat) (now : Int) (st : MState)
    (newId cid : String) (sendOk : Bool) (fails : String → Bool)
    (h : keysSync st) :
    keysSync (connect maxConns now st newId).2 ∧
    keysSync (disconnect st cid).1 ∧
    keysSync (sendMessage st cid sendOk).1 ∧
    keysSync (broadcast st fails).state ∧
    keysSync (handlePing st cid now sendOk) ∧
    keysSync (cleanupSweep now st).1 ∧
    keysSync ⟨[], [], []⟩ ∧
    (∀ k, k ∈ st.connections ↔ k ∈ st.connectionInfo.map Prod.fst) := by
  refine ⟨?_, keysSync_disconnect st cid h, keysSync_sendMessage st cid sendOk h,
    ?_, ?_, keysSync_sweepFold _ _ h, rfl, fun k => by rw [h]⟩
  · unfold connect
    split
    · exact h
    · unfold keysSync at *
      simp only
      unfold dictSetKey dictSetInfo
      rw [← h]
      split
      · next hc => rw [keys_overwrite st.connectionInfo (fun _ => _) newId, h]
      · simp [h]
  · unfold broadcast
    split
    · exact h
    · exact keysSync_broadcastLoop fails st.connections st 0 [] h
  · unfold handlePing
    refine keysSync_sendMessage _ cid sendOk ?_
    unfold keysSync at *
    simp only
    rw [List.map_map]
    have : st.connectionInfo.map
        (Prod.fst ∘ fun p =>
          if p.1 == cid then (p.1, { p.2 with lastPing := some now }) else p) =
        st.connectionInfo.map Prod.fst := by
      refine List.map_congr_left fun p _ => ?_
      by_cases hp : p.1 = cid <;> simp [hp]
    rw [this, ← h]

/-- C10, witness for `C10_maps_in_sync`: a one-subscriber registry with
agreeing key lists, exercised with concrete operation arguments. -/
theorem C10_maps_in_sync_witness :
    keysSync (connect 100 5 ⟨["a"], [("a", ⟨"a", 0, none, true⟩)], []⟩ "b").2 ∧
    keysSync (disconnect ⟨["a"], [("a", ⟨"a", 0, none, true⟩)], []⟩ "a").1 ∧
    keysSync
      (sendMessage ⟨["a"], [("a", ⟨"a", 0, none, true⟩)], []⟩ "a" false).1 ∧
    keysSync
      (broadcast ⟨["a"], [("a", ⟨"a", 0, none, true⟩)], []⟩
        (fun k => k == "a")).state ∧
    keysSync (handlePing ⟨["a"], [("a", ⟨"a", 0, none, true⟩)], []⟩ "a" 5
      false) ∧
    keysSync (cleanupSweep 5 ⟨["a"], [("a", ⟨"a", 0, none, true⟩)], []⟩).1 ∧
    keysSync ⟨[], [], []⟩ ∧
    (∀ k, k ∈ (MState.mk ["a"] [("a", ⟨"a", 0, none, true⟩)] []).connections ↔
      k ∈ (MState.mk ["a"] [("a", ⟨"a", 0, none, true⟩)]
            []).connectionInfo.map Prod.fst) :=
  C10_maps_in_sync 100 5 ⟨["a"], [("a", ⟨"a", 0, none, true⟩)], []⟩ "b" "a"
    false (fun k => k == "a") (by decide)

end Forex
